import Mathlib

/-!
Verification of the OpenCorporates lookup agent.

This file embeds the two Python modules of the repository
(opencorporates-agent.py and webapp-integration.py) as executable Lean
definitions and proves the specified properties about them.

Modelling choices:
  * JSON documents (the bodies returned by the registry API, the request
    bodies of the web endpoint, and the Python dicts the agent builds) are
    values of the inductive type JValue.
  * Python runtime exceptions are explicit: operations that can raise
    (attribute access on a non-dict, slicing a non-sequence, membership
    tests on non-containers) return Except PyErr. A Python try/except
    block becomes a match on the Except value.
  * The network is an oracle: a function from the request URL and the sent
    query parameters to an HttpOutcome (a parsed 2xx JSON body, a 2xx
    non-JSON body, a non-2xx status, a connection error, or a timeout).
    The requests library raises RequestException subclasses for the four
    failure outcomes; that exception type is ReqError below.
-/

/-- JSON-like values: Python None, bools, ints, strings, lists and dicts
with string keys in insertion order. -/
inductive JValue where
  | null
  | bool (b : Bool)
  | num (n : Int)
  | str (s : String)
  | arr (xs : List JValue)
  | obj (kvs : List (String × JValue))

/-- Association-list lookup on the fields of a JSON object, first match wins
(dict keys are unique in practice; insertion order is kept). -/
def lookupField : List (String × JValue) → String → Option JValue
  | [], _ => none
  | (k, v) :: rest, key => if k = key then some v else lookupField rest key

/-- Field access on a JSON value: some value if it is an object with that
key, none otherwise. Used to state properties about result entries. -/
def JValue.lookup? : JValue → String → Option JValue
  | .obj kvs, key => lookupField kvs key
  | _, _ => none

/-- Python truthiness: None, False, 0, the empty string, the empty list and
the empty dict are falsy; everything else is truthy. -/
def JValue.truthy : JValue → Bool
  | .null => false
  | .bool b => b
  | .num n => n != 0
  | .str s => s != ""
  | .arr xs => !xs.isEmpty
  | .obj kvs => !kvs.isEmpty

/-- Python runtime exceptions that the embedded operations can raise. -/
inductive PyErr where
  | attributeError
  | keyError (key : String)
  | typeError
  deriving DecidableEq

/-- The ASCII apostrophe character, written via its code point so that it
can be concatenated into the message strings the agent formats. -/
def squote : String := String.singleton (Char.ofNat 39)

/-- Python str.join of rendered values, used by the repr of containers. -/
def joinWith (sep : String) : List String → String
  | [] => ""
  | [x] => x
  | x :: xs => x ++ sep ++ joinWith sep xs

mutual

/-- Python repr of a JSON value (str values are quoted). -/
def JValue.pyrepr : JValue → String
  | .null => "None"
  | .bool b => if b then "True" else "False"
  | .num n => toString n
  | .str s => squote ++ s ++ squote
  | .arr xs => "[" ++ joinWith ", " (pyreprList xs) ++ "]"
  | .obj kvs => "\x7b" ++ joinWith ", " (pyreprFields kvs) ++ "\x7d"

/-- repr of the elements of a list. -/
def pyreprList : List JValue → List String
  | [] => []
  | x :: xs => x.pyrepr :: pyreprList xs

/-- repr of the fields of a dict. -/
def pyreprFields : List (String × JValue) → List String
  | [] => []
  | (k, v) :: kvs => (squote ++ k ++ squote ++ ": " ++ v.pyrepr) :: pyreprFields kvs

end

/-- Python str() of a JSON value, as used by f-string interpolation: a str
formats to itself, containers format via repr of their elements. -/
def JValue.pystr : JValue → String
  | .str s => s
  | v => v.pyrepr

/-- Python dict.get(key, default): the value under the key if present, the
default otherwise; AttributeError when the receiver is not a dict. -/
def pyGetD (v : JValue) (key : String) (dflt : JValue) : Except PyErr JValue :=
  match v with
  | .obj kvs => .ok ((lookupField kvs key).getD dflt)
  | _ => .error .attributeError

/-- Python dict.get(key) with the implicit None default. -/
def pyGet (v : JValue) (key : String) : Except PyErr JValue :=
  pyGetD v key .null

/-- Lowercasing a string character by character, as Python str.lower()
does on the ASCII alphabet (the static jurisdiction table only holds
ASCII keys). -/
def lowerString (s : String) : String := String.mk (s.data.map Char.toLower)

/-- Python str.lower(); AttributeError when the receiver is not a str. -/
def pyLower (v : JValue) : Except PyErr String :=
  match v with
  | .str s => .ok (lowerString s)
  | _ => .error .attributeError

/-- Substring test on character lists: does the needle occur contiguously
in the haystack? -/
def substrCheck (needle : List Char) : List Char → Bool
  | [] => needle.isEmpty
  | c :: rest => needle.isPrefixOf (c :: rest) || substrCheck needle rest

/-- Python membership test `key in v`: key lookup on a dict, element
equality on a list, substring test on a str; TypeError otherwise. -/
def pyIn (key : String) (v : JValue) : Except PyErr Bool :=
  match v with
  | .obj kvs => .ok (kvs.any (fun kv => kv.1 = key))
  | .arr xs =>
      .ok (xs.any (fun x => match x with
        | .str s => s = key
        | _ => false))
  | .str s => .ok (substrCheck key.toList s.toList)
  | _ => .error .typeError

/-- Python `v[:3]` followed by iteration over the slice: the first three
elements of a list, the first three characters of a str (each a one-char
str); TypeError when the value cannot be sliced. -/
def pySlice3 : JValue → Except PyErr (List JValue)
  | .arr xs => .ok (xs.take 3)
  | .str s => .ok ((s.toList.take 3).map (fun c => JValue.str (String.mk [c])))
  | _ => .error .typeError

/-- Python dict assignment d[k] = v: replaces in place when the key exists,
appends otherwise. -/
def dictSet : List (String × JValue) → String → JValue → List (String × JValue)
  | [], k, v => [(k, v)]
  | (k0, v0) :: rest, k, v =>
      if k0 = k then (k, v) :: rest else (k0, v0) :: dictSet rest k v

/-- What the network returns for one HTTP GET: a 2xx response with a parsed
JSON body, a 2xx response whose body is not JSON, a non-2xx status, a
connection error, or a timeout. Each failure carries the message that
str(exception) produces. -/
inductive HttpOutcome where
  | ok (body : JValue)
  | okRaw (msg : String)
  | httpError (msg : String)
  | connectionError (msg : String)
  | timeout (msg : String)

/-- True exactly on the outcome that yields a parsed JSON body. -/
def HttpOutcome.isOk : HttpOutcome → Bool
  | .ok _ => true
  | _ => false

/-- The requests.exceptions.RequestException subclasses that the try body
of _make_request can raise: JSONDecodeError from response.json(),
HTTPError from raise_for_status, ConnectionError and Timeout from get. -/
inductive ReqError where
  | jsonDecode (msg : String)
  | httpStatus (msg : String)
  | connection (msg : String)
  | timedOut (msg : String)

/-- str(e) for a RequestException. -/
def ReqError.message : ReqError → String
  | .jsonDecode m => m
  | .httpStatus m => m
  | .connection m => m
  | .timedOut m => m

/-- The network as an oracle from URL and sent parameters to an outcome. -/
def Network := String → List (String × JValue) → HttpOutcome

/-- The agent configuration fixed at construction: base URL and the
optional API token (Python stores None or a possibly empty string). -/
structure Agent where
  base_url : String := "https://api.opencorporates.com/v0.4"
  api_token : Option String

/-- url = f-string join of the base URL and the endpoint. -/
def request_url (a : Agent) (endpoint : String) : String :=
  a.base_url ++ "/" ++ endpoint

/-- `if self.api_token: params[api_token_key] = self.api_token` — the token
is added only when it is set and truthy (a non-empty string). -/
def set_api_token (api_token : Option String) (params : List (String × JValue)) :
    List (String × JValue) :=
  match api_token with
  | some t => if t = "" then params else dictSet params "api_token" (.str t)
  | none => params

/-- The try body of _make_request: requests.get, raise_for_status, then
response.json(); every failure outcome raises a RequestException. -/
def request_try_body (o : HttpOutcome) : Except ReqError JValue :=
  match o with
  | .ok body => .ok body
  | .okRaw m => .error (.jsonDecode m)
  | .httpError m => .error (.httpStatus m)
  | .connectionError m => .error (.connection m)
  | .timeout m => .error (.timedOut m)

/-- OpenCorporatesAgent._make_request: build the URL, append the API token
to the parameters when configured, issue the request, and catch every
RequestException, converting it to the dict with the single key "error"
whose value is str(e). Total: no exception escapes. -/
def _make_request (a : Agent) (net : Network) (endpoint : String)
    (params : List (String × JValue)) : JValue :=
  match request_try_body (net (request_url a endpoint) (set_api_token a.api_token params)) with
  | .ok v => v
  | .error e => .obj [("error", .str e.message)]

/-- The query parameters search_companies builds: q always, plus the
jurisdiction code when one was resolved and is truthy. -/
def search_params (query : JValue) (jurisdiction_code : Option String) :
    List (String × JValue) :=
  match jurisdiction_code with
  | some c => if c = "" then [("q", query)] else [("q", query), ("jurisdiction_code", .str c)]
  | none => [("q", query)]

/-- OpenCorporatesAgent.search_companies: issue the search request; on an
error-shaped response return the empty list; otherwise extract
results.companies, with KeyError and AttributeError absorbed into the
empty list. Membership testing the response can itself raise TypeError
on a non-container JSON body, which propagates. -/
def search_companies (a : Agent) (net : Network) (query : JValue)
    (jurisdiction_code : Option String) : Except PyErr JValue := do
  let response := _make_request a net "companies/search" (search_params query jurisdiction_code)
  let hasErr ← pyIn "error" response
  if hasErr then
    pure (.arr [])
  else
    pure (match (pyGetD response "results" (.obj [])).bind
            (fun r => pyGetD r "companies" (.arr [])) with
      | .ok v => v
      | .error _ => .arr [])

/-- The endpoint path for the officers fetch, built by f-string
interpolation of the two identifying values. -/
def officers_endpoint (jurisdiction_code company_number : JValue) : String :=
  "companies/" ++ jurisdiction_code.pystr ++ "/" ++ company_number.pystr ++ "/officers"

/-- OpenCorporatesAgent.get_company_officers: fetch the officers of one
company; on an error-shaped response return the empty list; otherwise
extract results.officers, with KeyError and AttributeError absorbed into
the empty list. -/
def get_company_officers (a : Agent) (net : Network)
    (jurisdiction_code company_number : JValue) : Except PyErr JValue := do
  let response := _make_request a net (officers_endpoint jurisdiction_code company_number) []
  let hasErr ← pyIn "error" response
  if hasErr then
    pure (.arr [])
  else
    pure (match (pyGetD response "results" (.obj [])).bind
            (fun r => pyGetD r "officers" (.arr [])) with
      | .ok v => v
      | .error _ => .arr [])

/-- The static jurisdiction table of find_company_controllers. -/
def state_codes : List (String × String) :=
  [("california", "us_ca"), ("ca", "us_ca"), ("illinois", "us_il"), ("il", "us_il")]

/-- The jurisdiction-hint resolution step of find_company_controllers:
when the hint is truthy, look up hint.lower() in the static table (absence
gives no code); when falsy (None or the empty string) the code stays None.
Calling lower() on a truthy non-str hint raises AttributeError. -/
def resolve_hint (jurisdiction_hint : JValue) : Except PyErr (Option String) :=
  if jurisdiction_hint.truthy then do
    let l ← pyLower jurisdiction_hint
    pure (state_codes.lookup l)
  else
    pure none

/-- The body of the per-candidate loop of find_company_controllers, up to
the append: read the candidate record, extract the two identifying fields,
and when both are truthy fetch the officers and build the result entry;
when either is missing or falsy the candidate contributes nothing (none).
Any PyErr raised inside corresponds to an exception the loop catches. -/
def process_candidate (a : Agent) (net : Network) (company_data : JValue) :
    Except PyErr (Option JValue) := do
  let company ← pyGetD company_data "company" (.obj [])
  let jurisdiction ← pyGet company "jurisdiction_code"
  let company_number ← pyGet company "company_number"
  if jurisdiction.truthy && company_number.truthy then do
    let officers ← get_company_officers a net jurisdiction company_number
    let nm ← pyGet company "name"
    let inc ← pyGet company "incorporation_date"
    let cty ← pyGet company "company_type"
    let cst ← pyGet company "current_status"
    pure (some (.obj [("company_name", nm), ("jurisdiction", jurisdiction),
      ("company_number", company_number), ("incorporation_date", inc),
      ("company_type", cty), ("current_status", cst), ("officers", officers)]))
  else
    pure none

/-- The per-candidate loop of find_company_controllers: fold over the
candidates, appending the entry of each successfully processed one;
a candidate that yields none, or whose processing raises, is skipped and
the loop continues (the except Exception handler only logs). -/
def aggregate_results (a : Agent) (net : Network) (cands : List JValue) : List JValue :=
  cands.foldl (fun acc company_data =>
    match process_candidate a net company_data with
    | .ok (some entry) => acc ++ [entry]
    | .ok none => acc
    | .error _ => acc) []

/-- The dict find_company_controllers returns. -/
structure LookupResult where
  status : String
  message : String
  results : List JValue

/-- OpenCorporatesAgent.find_company_controllers: resolve the jurisdiction
hint, search, return not_found on a falsy candidate collection, otherwise
process the first three candidates and classify success or
partial_results by whether any entry was produced. -/
def find_company_controllers (a : Agent) (net : Network) (company_name : JValue)
    (jurisdiction_hint : JValue) : Except PyErr LookupResult := do
  let jurisdiction_code ← resolve_hint jurisdiction_hint
  let companies ← search_companies a net company_name jurisdiction_code
  if companies.truthy = false then
    pure { status := "not_found",
           message := "No companies found matching " ++ squote ++ company_name.pystr ++ squote,
           results := [] }
  else do
    let top ← pySlice3 companies
    let results := aggregate_results a net top
    pure { status := if results.isEmpty then "partial_results" else "success",
           message := "Found " ++ toString results.length ++ " potential matches for "
                        ++ squote ++ company_name.pystr ++ squote,
           results := results }

/-- jsonify of the result dict of find_company_controllers. -/
def serializeResult (r : LookupResult) : JValue :=
  .obj [("status", .str r.status), ("message", .str r.message), ("results", .arr r.results)]

/-- The webapp search_company view (POST /api/search): read company_name
and jurisdiction from the JSON body, answer 400 with the fixed error body
when company_name is missing or falsy, otherwise 200 with the serialized
lookup result. -/
def search_company (a : Agent) (net : Network) (data : JValue) :
    Except PyErr (Nat × JValue) := do
  let company_name ← pyGet data "company_name"
  let jurisdiction ← pyGet data "jurisdiction"
  if company_name.truthy = false then
    pure (400, .obj [("error", .str "Company name is required")])
  else do
    let result ← find_company_controllers a net company_name jurisdiction
    pure (200, serializeResult result)

/-! ## Helper lemmas about the Except monad and the candidate loop -/

theorem ok_bind {ε α β : Type} (x : α) (f : α → Except ε β) :
    (Except.ok x >>= f) = f x := rfl

theorem error_bind {ε α β : Type} (e : ε) (f : α → Except ε β) :
    ((Except.error e : Except ε α) >>= f) = .error e := rfl

theorem pure_eq_ok {ε α : Type} (x : α) : (pure x : Except ε α) = .ok x := rfl

theorem except_bind_ok {ε α β : Type} {x : Except ε α} {f : α → Except ε β} {b : β} :
    (x >>= f) = .ok b ↔ ∃ y, x = .ok y ∧ f y = .ok b := by
  cases x <;> simp [ok_bind, error_bind]

/-- The contribution of one candidate to the results of the loop. -/
def candEntry (a : Agent) (net : Network) (company_data : JValue) : Option JValue :=
  match process_candidate a net company_data with
  | .ok (some entry) => some entry
  | .ok none => none
  | .error _ => none

theorem aggregate_results_eq (a : Agent) (net : Network) (cands : List JValue) :
    aggregate_results a net cands = cands.filterMap (candEntry a net) := by
  suffices h : ∀ acc : List JValue,
      cands.foldl (fun acc company_data =>
        match process_candidate a net company_data with
        | .ok (some entry) => acc ++ [entry]
        | .ok none => acc
        | .error _ => acc) acc = acc ++ cands.filterMap (candEntry a net) by
    simpa [aggregate_results] using h []
  induction cands with
  | nil => intro acc; simp
  | cons cd rest ih =>
      intro acc
      simp only [List.foldl_cons, List.filterMap_cons]
      rcases hcd : process_candidate a net cd with e | oe
      · simp [candEntry, hcd, ih]
      · rcases oe with _ | entry
        · simp [candEntry, hcd, ih]
        · simp [candEntry, hcd, ih (acc ++ [entry])]

theorem aggregate_length_le (a : Agent) (net : Network) (cands : List JValue) :
    (aggregate_results a net cands).length ≤ cands.length := by
  rw [aggregate_results_eq]
  exact List.length_filterMap_le _ _

theorem aggregate_skip (a : Agent) (net : Network) (cd : JValue)
    (h : candEntry a net cd = none) (pre post : List JValue) :
    aggregate_results a net (pre ++ cd :: post) = aggregate_results a net (pre ++ post) := by
  simp [aggregate_results_eq, List.filterMap_append, List.filterMap_cons, h]

theorem mem_aggregate (a : Agent) (net : Network) {cands : List JValue} {e : JValue} :
    e ∈ aggregate_results a net cands ↔
      ∃ cd ∈ cands, process_candidate a net cd = .ok (some e) := by
  rw [aggregate_results_eq, List.mem_filterMap]
  constructor
  · rintro ⟨cd, hmem, hcd⟩
    refine ⟨cd, hmem, ?_⟩
    unfold candEntry at hcd
    rcases hp : process_candidate a net cd with er | oe
    · rw [hp] at hcd; cases hcd
    · rcases oe with _ | entry
      · rw [hp] at hcd; cases hcd
      · rw [hp] at hcd
        injection hcd with h2
        rw [h2]
  · rintro ⟨cd, hmem, hcd⟩
    exact ⟨cd, hmem, by simp [candEntry, hcd]⟩

theorem aggregate_ne_nil (a : Agent) (net : Network) {cands : List JValue} :
    aggregate_results a net cands ≠ [] ↔
      ∃ cd ∈ cands, ∃ e, process_candidate a net cd = .ok (some e) := by
  constructor
  · intro h
    rcases List.exists_mem_of_ne_nil _ h with ⟨e, he⟩
    rcases (mem_aggregate a net).mp he with ⟨cd, hmem, hcd⟩
    exact ⟨cd, hmem, e, hcd⟩
  · rintro ⟨cd, hmem, e, hcd⟩
    intro hnil
    have : e ∈ aggregate_results a net cands := (mem_aggregate a net).mpr ⟨cd, hmem, hcd⟩
    rw [hnil] at this
    cases this

/-- Inversion of a successful candidate processing: the candidate record
was readable, both identifying fields were truthy, the officers fetch
succeeded, and the entry is exactly the dict the loop builds. -/
theorem process_candidate_ok_some {a : Agent} {net : Network} {cd e : JValue}
    (h : process_candidate a net cd = .ok (some e)) :
    ∃ company j n offs nm inc cty cst,
      pyGetD cd "company" (.obj []) = .ok company ∧
      pyGet company "jurisdiction_code" = .ok j ∧
      pyGet company "company_number" = .ok n ∧
      j.truthy = true ∧ n.truthy = true ∧
      get_company_officers a net j n = .ok offs ∧
      e = .obj [("company_name", nm), ("jurisdiction", j), ("company_number", n),
        ("incorporation_date", inc), ("company_type", cty), ("current_status", cst),
        ("officers", offs)] := by
  unfold process_candidate at h
  rcases except_bind_ok.mp h with ⟨company, hcompany, h⟩
  rcases except_bind_ok.mp h with ⟨j, hj, h⟩
  rcases except_bind_ok.mp h with ⟨n, hn, h⟩
  rcases htr : (j.truthy && n.truthy) with _ | _
  · rw [htr] at h
    simp only [Bool.false_eq_true, if_false, pure_eq_ok, Except.ok.injEq] at h
    cases h
  · rw [htr] at h
    simp only [if_true] at h
    rcases except_bind_ok.mp h with ⟨offs, hoffs, h⟩
    rcases except_bind_ok.mp h with ⟨nm, hnm, h⟩
    rcases except_bind_ok.mp h with ⟨inc, hinc, h⟩
    rcases except_bind_ok.mp h with ⟨cty, hcty, h⟩
    rcases except_bind_ok.mp h with ⟨cst, hcst, h⟩
    rw [pure_eq_ok] at h
    cases h
    have htr2 : j.truthy = true ∧ n.truthy = true := by simpa using htr
    exact ⟨company, j, n, offs, nm, inc, cty, cst, hcompany, hj, hn, htr2.1, htr2.2, hoffs, rfl⟩

/-- Evaluation of find_company_controllers once the resolution and search
steps are known. -/
theorem find_eval {a : Agent} {net : Network} {name hint : JValue}
    {jc : Option String} {companies : JValue}
    (hres : resolve_hint hint = .ok jc)
    (hsearch : search_companies a net name jc = .ok companies) :
    find_company_controllers a net name hint =
      if companies.truthy = false then
        .ok { status := "not_found",
              message := "No companies found matching " ++ squote ++ name.pystr ++ squote,
              results := [] }
      else
        pySlice3 companies >>= fun top =>
          .ok { status := if (aggregate_results a net top).isEmpty then "partial_results"
                          else "success",
                message := "Found " ++ toString (aggregate_results a net top).length
                  ++ " potential matches for " ++ squote ++ name.pystr ++ squote,
                results := aggregate_results a net top } := by
  unfold find_company_controllers
  rw [hres, ok_bind, hsearch, ok_bind]
  rfl

/-- Inversion of a completed lookup: the resolution and search steps
succeeded and the result is one of the two assembled shapes. -/
theorem find_ok_elim {a : Agent} {net : Network} {name hint : JValue} {r : LookupResult}
    (h : find_company_controllers a net name hint = .ok r) :
    ∃ jc companies, resolve_hint hint = .ok jc ∧
      search_companies a net name jc = .ok companies ∧
      ((companies.truthy = false ∧ r.results = []) ∨
       (companies.truthy = true ∧ ∃ top, pySlice3 companies = .ok top ∧
         top.length ≤ 3 ∧ r.results = aggregate_results a net top)) := by
  unfold find_company_controllers at h
  rcases except_bind_ok.mp h with ⟨jc, hres, h⟩
  rcases except_bind_ok.mp h with ⟨companies, hsearch, h⟩
  refine ⟨jc, companies, hres, hsearch, ?_⟩
  rcases htr : companies.truthy with _ | _
  · left
    rw [htr] at h
    rw [if_pos rfl, pure_eq_ok] at h
    injection h with h
    rw [← h]
    exact ⟨rfl, rfl⟩
  · right
    rw [htr] at h
    rw [if_neg (by simp)] at h
    rcases except_bind_ok.mp h with ⟨top, hslice, h⟩
    refine ⟨rfl, top, hslice, ?_, ?_⟩
    · rcases companies with _ | b | nn | s | xs | kvs <;> simp [pySlice3] at hslice
      · rw [← hslice]
        exact List.length_take_le 3 _
      · rw [← hslice]
        exact List.length_take_le 3 xs
    · simp only [pure_eq_ok] at h
      injection h with h
      rw [← h]

/-- A truthy value is never None. -/
theorem truthy_ne_null {v : JValue} (h : v.truthy = true) : v ≠ JValue.null := by
  intro he
  subst he
  simp [JValue.truthy] at h

/-- Any hint whose lowercase form is absent from the static table resolves
to no code (this includes the empty hint, which is falsy). -/
theorem resolve_hint_miss {s : String}
    (hmiss : List.lookup (lowerString s) state_codes = none) :
    resolve_hint (.str s) = .ok none := by
  unfold resolve_hint
  rcases hs : (JValue.str s).truthy with _ | _
  · rfl
  · rw [if_pos rfl]
    show (pyLower (.str s) >>= fun l => pure (List.lookup l state_codes)) = .ok none
    rw [show pyLower (.str s) = .ok (lowerString s) from rfl, ok_bind, hmiss]
    rfl

/-! ## Concrete fixtures used by the witnesses -/

/-- An agent configured without an API token. -/
def a0 : Agent := { api_token := none }

/-- A network on which every request fails at the transport layer. -/
def netDown : Network := fun _ _ => .connectionError "connection refused"

/-- One well-formed search candidate. -/
def coA : JValue :=
  .obj [("company", .obj [("name", .str "Acme Corp"),
    ("jurisdiction_code", .str "us_ca"), ("company_number", .str "C123")])]

/-- A network whose search returns one candidate and whose other endpoints
answer with a non-2xx status. -/
def netOneHit : Network := fun url _ =>
  if url = "https://api.opencorporates.com/v0.4/companies/search" then
    .ok (.obj [("results", .obj [("companies", .arr [coA])])])
  else .httpError "404 Client Error: Not Found"

/-- The entry the loop builds for coA when the officers fetch fails. -/
def entryA : JValue :=
  .obj [("company_name", .str "Acme Corp"), ("jurisdiction", .str "us_ca"),
    ("company_number", .str "C123"), ("incorporation_date", .null),
    ("company_type", .null), ("current_status", .null), ("officers", .arr [])]

/-! ## The claims -/

/-- C4: for every endpoint path, parameter map and upstream response,
_make_request evaluates to a value: the parsed body on a 2xx JSON
response, and otherwise the error-shaped dict carrying str(e). Its Lean
type is plain JValue, not Except: the RequestException handler catches
every exception the try body can raise, so no exception propagates. -/
theorem C4_make_request_total (a : Agent) (net : Network) (endpoint : String)
    (params : List (String × JValue)) :
    (∃ body, net (request_url a endpoint) (set_api_token a.api_token params) = .ok body ∧
       _make_request a net endpoint params = body) ∨
    (∃ msg, _make_request a net endpoint params = .obj [("error", .str msg)]) := by
  unfold _make_request
  rcases h : net (request_url a endpoint) (set_api_token a.api_token params)
    with b | m | m | m | m
  · left
    exact ⟨b, rfl, rfl⟩
  · right; exact ⟨m, rfl⟩
  · right; exact ⟨m, rfl⟩
  · right; exact ⟨m, rfl⟩
  · right; exact ⟨m, rfl⟩

/-- C5: jurisdiction-hint resolution is a case-insensitive lookup in the
static table: CA, ca and California all resolve to us_ca; a hint absent
from the table, the empty hint and None all resolve to no code; and an
absent code means the search is issued without a jurisdiction filter. -/
theorem C5_resolver_case_insensitive :
    (∀ s : String, List.lookup (lowerString s) state_codes = none →
        resolve_hint (.str s) = .ok none) ∧
    (∀ q : JValue, search_params q none = [("q", q)]) ∧
    resolve_hint (.str "CA") = .ok (some "us_ca") ∧
    resolve_hint (.str "ca") = .ok (some "us_ca") ∧
    resolve_hint (.str "California") = .ok (some "us_ca") ∧
    resolve_hint .null = .ok none ∧
    resolve_hint (.str "") = .ok none ∧
    resolve_hint (.str "unknown") = .ok none := by
  refine ⟨fun s hmiss => resolve_hint_miss hmiss, fun q => rfl, ?_, ?_, ?_, rfl, rfl, ?_⟩
  · rfl
  · rfl
  · rfl
  · rfl

/-- C5 witness: a concrete hint absent from the table resolves to none. -/
theorem C5_resolver_case_insensitive_witness :
    resolve_hint (.str "Texas") = .ok none :=
  C5_resolver_case_insensitive.1 "Texas" rfl

/-- C10: a hint whose lowercase form is not a key of the table — even one
that is already a registry jurisdiction code — resolves to no code, the
search parameters carry no jurisdiction filter, and the whole lookup
behaves exactly as if no hint had been given. -/
theorem C10_registry_code_hint_widens (a : Agent) (net : Network) (name : JValue)
    (h : String)
    (hmiss : List.lookup (lowerString h) state_codes = none) :
    resolve_hint (.str h) = .ok none ∧
    search_params name none = [("q", name)] ∧
    find_company_controllers a net name (.str h) =
      find_company_controllers a net name .null := by
  have hres : resolve_hint (.str h) = .ok none := resolve_hint_miss hmiss
  refine ⟨hres, rfl, ?_⟩
  unfold find_company_controllers
  rw [hres]
  rfl

/-- C10 witness: the hint us_ca, itself a valid registry code, widens the
search instead of filtering by it. -/
theorem C10_registry_code_hint_widens_witness :
    resolve_hint (.str "us_ca") = .ok none ∧
    search_params (.str "Acme") none = [("q", .str "Acme")] ∧
    find_company_controllers a0 netDown (.str "Acme") (.str "us_ca") =
      find_company_controllers a0 netDown (.str "Acme") .null :=
  C10_registry_code_hint_widens a0 netDown (.str "Acme") "us_ca" rfl


/-- isEmpty of a nonempty list is false. -/
theorem isEmpty_false_of_ne_nil {α : Type} {l : List α} (h : l ≠ []) :
    l.isEmpty = false := by
  cases l with
  | nil => exact absurd rfl h
  | cons x xs => rfl

/-- The three status strings are pairwise distinct. -/
theorem str_nf_ne_success : ¬("not_found" : String) = "success" := by decide

/-- not_found differs from partial_results. -/
theorem str_nf_ne_partial : ¬("not_found" : String) = "partial_results" := by decide

/-- partial_results differs from not_found. -/
theorem str_partial_ne_nf : ¬("partial_results" : String) = "not_found" := by decide

/-- partial_results differs from success. -/
theorem str_partial_ne_success : ¬("partial_results" : String) = "success" := by decide

/-- success differs from not_found. -/
theorem str_success_ne_nf : ¬("success" : String) = "not_found" := by decide

/-- success differs from partial_results. -/
theorem str_success_ne_partial : ¬("success" : String) = "partial_results" := by decide

/-- C1: once the hint resolution and the search step are fixed, the status
of the lookup is not_found exactly when the search yielded zero candidates
(which includes every errored search, since search_companies maps an
error-shaped response to the empty list), success exactly when some
candidate among the first three was fully resolved and its entry appended
to the results, and partial_results exactly when candidates existed but
none resolved. -/
theorem C1_status_classification (a : Agent) (net : Network) (name : String)
    (hint : JValue) (jc : Option String) (cs : List JValue)
    (hres : resolve_hint hint = .ok jc)
    (hsearch : search_companies a net (.str name) jc = .ok (.arr cs)) :
    ∃ r, find_company_controllers a net (.str name) hint = .ok r ∧
      (r.status = "not_found" ↔ cs = []) ∧
      (r.status = "success" ↔ ∃ cd ∈ cs.take 3, ∃ e,
        process_candidate a net cd = .ok (some e) ∧ e ∈ r.results) ∧
      (r.status = "partial_results" ↔ cs ≠ [] ∧ r.results = []) := by
  have heval := find_eval hres hsearch
  cases cs with
  | nil =>
      rw [if_pos (show (JValue.arr []).truthy = false from rfl)] at heval
      refine ⟨_, heval, iff_of_true rfl rfl,
        iff_of_false (fun hx => str_nf_ne_success hx) ?_,
        iff_of_false (fun hx => str_nf_ne_partial hx) ?_⟩
      · rintro ⟨cd, hm, -⟩
        have hm2 : cd ∈ ([] : List JValue) := hm
        cases hm2
      · rintro ⟨habs, -⟩
        exact habs rfl
  | cons c cs' =>
      rw [if_neg (show ¬(JValue.arr (c :: cs')).truthy = false from fun hx => nomatch hx)]
        at heval
      rw [show pySlice3 (.arr (c :: cs')) = Except.ok ((c :: cs').take 3) from rfl,
        ok_bind] at heval
      by_cases hnil : aggregate_results a net ((c :: cs').take 3) = []
      · rw [show (aggregate_results a net ((c :: cs').take 3)).isEmpty = true by
          rw [hnil]; rfl, if_pos rfl] at heval
        refine ⟨_, heval, iff_of_false (fun hx => str_partial_ne_nf hx) (by simp),
          iff_of_false (fun hx => str_partial_ne_success hx) ?_,
          iff_of_true rfl ⟨by simp, hnil⟩⟩
        rintro ⟨cd, hm, e, hp, hmem⟩
        have hmem2 : e ∈ aggregate_results a net ((c :: cs').take 3) := hmem
        rw [hnil] at hmem2
        cases hmem2
      · rw [isEmpty_false_of_ne_nil hnil, if_neg Bool.false_ne_true] at heval
        refine ⟨_, heval, iff_of_false (fun hx => str_success_ne_nf hx) (by simp),
          iff_of_true rfl ?_,
          iff_of_false (fun hx => str_success_ne_partial hx) ?_⟩
        · rcases (aggregate_ne_nil a net).mp hnil with ⟨cd, hm, e, hp⟩
          exact ⟨cd, hm, e, hp, (mem_aggregate a net).mpr ⟨cd, hm, hp⟩⟩
        · rintro ⟨-, hres2⟩
          exact hnil hres2

/-- C1 witness: a transport-failed search yields a not_found lookup with
the three status equivalences instantiated. -/
theorem C1_status_classification_witness :
    ∃ r, find_company_controllers a0 netDown (.str "Acme") .null = .ok r ∧
      (r.status = "not_found" ↔ ([] : List JValue) = []) ∧
      (r.status = "success" ↔ ∃ cd ∈ ([] : List JValue).take 3, ∃ e,
        process_candidate a0 netDown cd = .ok (some e) ∧ e ∈ r.results) ∧
      (r.status = "partial_results" ↔ ([] : List JValue) ≠ [] ∧ r.results = []) :=
  C1_status_classification a0 netDown "Acme" .null none [] rfl rfl

/-- C2: however many hits the search reports, at most the first three are
processed, so the results sequence never holds more than 3 entries. -/
theorem C2_results_capped (a : Agent) (net : Network) (name hint : JValue)
    (r : LookupResult) (h : find_company_controllers a net name hint = .ok r) :
    r.results.length ≤ 3 := by
  rcases find_ok_elim h with ⟨jc, companies, hres, hsearch, hcase⟩
  rcases hcase with ⟨htr, hr⟩ | ⟨htr, top, hslice, hlen, hr⟩
  · rw [hr]
    simp
  · rw [hr]
    exact le_trans (aggregate_length_le a net top) hlen

/-- C2 witness: the cap evaluated on a concrete completed lookup. -/
theorem C2_results_capped_witness :
    ({ status := "not_found",
       message := "No companies found matching " ++ squote ++ "Acme" ++ squote,
       results := [] } : LookupResult).results.length ≤ 3 :=
  C2_results_capped a0 netDown (.str "Acme") .null _ rfl

/-- C6: when candidates existed the message is Found k potential matches
quoting the name, with k exactly the number of returned entries, and when
none existed it is No companies found matching the quoted name; either
way the message contains the company name. -/
theorem C6_message_contract (a : Agent) (net : Network) (name : String)
    (hint : JValue) (jc : Option String) (cs : List JValue)
    (hres : resolve_hint hint = .ok jc)
    (hsearch : search_companies a net (.str name) jc = .ok (.arr cs)) :
    ∃ r, find_company_controllers a net (.str name) hint = .ok r ∧
      (cs = [] →
        r.message = "No companies found matching " ++ squote ++ name ++ squote) ∧
      (cs ≠ [] →
        r.message = "Found " ++ toString r.results.length
          ++ " potential matches for " ++ squote ++ name ++ squote) ∧
      ∃ p s, r.message = p ++ name ++ s := by
  have heval := find_eval hres hsearch
  cases cs with
  | nil =>
      rw [if_pos (show (JValue.arr []).truthy = false from rfl)] at heval
      exact ⟨_, heval, fun _ => rfl, fun habs => absurd rfl habs,
        "No companies found matching " ++ squote, squote, rfl⟩
  | cons c cs' =>
      rw [if_neg (show ¬(JValue.arr (c :: cs')).truthy = false from fun hx => nomatch hx)]
        at heval
      rw [show pySlice3 (.arr (c :: cs')) = Except.ok ((c :: cs').take 3) from rfl,
        ok_bind] at heval
      exact ⟨_, heval, fun habs => absurd habs (by simp), fun _ => rfl,
        "Found " ++ toString (aggregate_results a net ((c :: cs').take 3)).length
          ++ " potential matches for " ++ squote, squote, rfl⟩

/-- C6 witness: the not_found message on a concrete errored search quotes
and contains the company name. -/
theorem C6_message_contract_witness :
    ∃ r, find_company_controllers a0 netDown (.str "Acme") .null = .ok r ∧
      (([] : List JValue) = [] →
        r.message = "No companies found matching " ++ squote ++ "Acme" ++ squote) ∧
      (([] : List JValue) ≠ [] →
        r.message = "Found " ++ toString r.results.length
          ++ " potential matches for " ++ squote ++ "Acme" ++ squote) ∧
      ∃ p s, r.message = p ++ "Acme" ++ s :=
  C6_message_contract a0 netDown "Acme" .null none [] rfl rfl

/-- The result of a lookup for Acme on netOneHit: the single candidate is
fully resolved and the failed officers fetch leaves an empty officer list. -/
def rA : LookupResult :=
  { status := "success",
    message := "Found 1 potential matches for " ++ squote ++ "Acme" ++ squote,
    results := [entryA] }

/-- C3: every returned entry carries a truthy (hence non-null) jurisdiction
code and company number, and a candidate whose record lacks either field
is skipped: its processing returns no entry and it contributes nothing to
the aggregated results, with no error reported. -/
theorem C3_entries_resolved (a : Agent) (net : Network) (name hint : JValue)
    (r : LookupResult) (h : find_company_controllers a net name hint = .ok r) :
    (∀ e ∈ r.results, ∃ j n,
        e.lookup? "jurisdiction" = some j ∧ j.truthy = true ∧ j ≠ JValue.null ∧
        e.lookup? "company_number" = some n ∧ n.truthy = true ∧ n ≠ JValue.null) ∧
    (∀ cd company j n, pyGetD cd "company" (.obj []) = .ok company →
        pyGet company "jurisdiction_code" = .ok j →
        pyGet company "company_number" = .ok n →
        (j.truthy && n.truthy) = false →
        process_candidate a net cd = .ok none ∧
        ∀ pre post, aggregate_results a net (pre ++ cd :: post) =
          aggregate_results a net (pre ++ post)) := by
  constructor
  · intro e he
    rcases find_ok_elim h with ⟨jc, companies, hres, hsearch, hcase⟩
    rcases hcase with ⟨htr, hr⟩ | ⟨htr, top, hslice, hlen, hr⟩
    · rw [hr] at he
      cases he
    · rw [hr] at he
      rcases (mem_aggregate a net).mp he with ⟨cd, hm, hp⟩
      rcases process_candidate_ok_some hp with
        ⟨company, j, n, offs, nm, inc, cty, cst, -, -, -, hjt, hnt, -, he2⟩
      subst he2
      refine ⟨j, n, ?_, hjt, truthy_ne_null hjt, ?_, hnt, truthy_ne_null hnt⟩
      · simp [JValue.lookup?, lookupField]
      · simp [JValue.lookup?, lookupField]
  · intro cd company j n hc hj hn hfalse
    have hpc : process_candidate a net cd = .ok none := by
      unfold process_candidate
      rw [hc, ok_bind, hj, ok_bind, hn, ok_bind, hfalse,
        if_neg (show ¬(false : Bool) = true from fun hx => nomatch hx)]
      rfl
    exact ⟨hpc, fun pre post => aggregate_skip a net cd (by simp [candEntry, hpc]) pre post⟩

/-- C3 witness: the entry invariants evaluated on the concrete one-hit
lookup result. -/
theorem C3_entries_resolved_witness :
    (∀ e ∈ rA.results, ∃ j n,
        e.lookup? "jurisdiction" = some j ∧ j.truthy = true ∧ j ≠ JValue.null ∧
        e.lookup? "company_number" = some n ∧ n.truthy = true ∧ n ≠ JValue.null) ∧
    (∀ cd company j n, pyGetD cd "company" (.obj []) = .ok company →
        pyGet company "jurisdiction_code" = .ok j →
        pyGet company "company_number" = .ok n →
        (j.truthy && n.truthy) = false →
        process_candidate a0 netOneHit cd = .ok none ∧
        ∀ pre post, aggregate_results a0 netOneHit (pre ++ cd :: post) =
          aggregate_results a0 netOneHit (pre ++ post)) :=
  C3_entries_resolved a0 netOneHit (.str "Acme") .null rA rfl

/-- C7: a candidate whose processing raises is skipped without aborting
the loop: the aggregation over the full list equals the aggregation with
the failing candidate removed, and the entries of the earlier candidates
are preserved as a prefix of the final results. -/
theorem C7_loop_error_isolated (a : Agent) (net : Network) (pre post : List JValue)
    (bad : JValue) (err : PyErr)
    (h : process_candidate a net bad = .error err) :
    aggregate_results a net (pre ++ bad :: post) = aggregate_results a net (pre ++ post) ∧
    ∃ tail, aggregate_results a net pre ++ tail =
      aggregate_results a net (pre ++ bad :: post) := by
  have hskip := aggregate_skip a net bad (by simp [candEntry, h]) pre post
  refine ⟨hskip, post.filterMap (candEntry a net), ?_⟩
  rw [hskip]
  simp [aggregate_results_eq, List.filterMap_append]

/-- C7 witness: a malformed candidate between two processed lists is
skipped and the earlier entry survives. -/
theorem C7_loop_error_isolated_witness :
    aggregate_results a0 netDown ([coA] ++ JValue.str "junk" :: []) =
      aggregate_results a0 netDown ([coA] ++ []) ∧
    ∃ tail, aggregate_results a0 netDown [coA] ++ tail =
      aggregate_results a0 netDown ([coA] ++ JValue.str "junk" :: []) :=
  C7_loop_error_isolated a0 netDown [coA] [] (.str "junk") .attributeError rfl

/-- C8: when the officers request does not yield a 2xx JSON body, the
error-shaped response is absorbed into an empty officer list, and a fully
resolved candidate still produces an entry whose officers field is the
empty list, appearing in the aggregated results. -/
theorem C8_officer_failure_absorbed (a : Agent) (net : Network) (j n : JValue)
    (hfail : (net (request_url a (officers_endpoint j n))
        (set_api_token a.api_token [])).isOk = false) :
    get_company_officers a net j n = .ok (.arr []) ∧
    ∀ cd company, pyGetD cd "company" (.obj []) = .ok company →
      pyGet company "jurisdiction_code" = .ok j →
      pyGet company "company_number" = .ok n →
      j.truthy = true → n.truthy = true →
      ∃ e, process_candidate a net cd = .ok (some e) ∧
        e.lookup? "officers" = some (.arr []) ∧
        ∀ pre post, e ∈ aggregate_results a net (pre ++ cd :: post) := by
  have hoff : get_company_officers a net j n = .ok (.arr []) := by
    unfold get_company_officers _make_request
    rcases houtcome : net (request_url a (officers_endpoint j n)) (set_api_token a.api_token [])
      with b | m | m | m | m
    · rw [houtcome] at hfail
      exact absurd hfail (by simp [HttpOutcome.isOk])
    · rfl
    · rfl
    · rfl
    · rfl
  refine ⟨hoff, ?_⟩
  intro cd company hc hj hn hjt hnt
  rcases company with _ | b | nn | s | xs | kvs
  · exact absurd hj (by simp [pyGet, pyGetD])
  · exact absurd hj (by simp [pyGet, pyGetD])
  · exact absurd hj (by simp [pyGet, pyGetD])
  · exact absurd hj (by simp [pyGet, pyGetD])
  · exact absurd hj (by simp [pyGet, pyGetD])
  · have hpc : process_candidate a net cd = .ok (some (JValue.obj [
        ("company_name", (lookupField kvs "name").getD .null),
        ("jurisdiction", j), ("company_number", n),
        ("incorporation_date", (lookupField kvs "incorporation_date").getD .null),
        ("company_type", (lookupField kvs "company_type").getD .null),
        ("current_status", (lookupField kvs "current_status").getD .null),
        ("officers", .arr [])])) := by
      unfold process_candidate
      rw [hc, ok_bind, hj, ok_bind, hn, ok_bind, hjt, hnt,
        if_pos (show (true && true) = true from rfl), hoff, ok_bind]
      rfl
    refine ⟨_, hpc, ?_, ?_⟩
    · simp [JValue.lookup?, lookupField]
    · intro pre post
      exact (mem_aggregate a net).mpr ⟨cd, by simp, hpc⟩

/-- C8 witness: on the all-failing network the officers fetch for the
concrete pair collapses to an empty list and a resolved candidate still
yields an entry. -/
theorem C8_officer_failure_absorbed_witness :
    get_company_officers a0 netDown (.str "us_ca") (.str "C123") = .ok (.arr []) ∧
    ∀ cd company, pyGetD cd "company" (.obj []) = .ok company →
      pyGet company "jurisdiction_code" = .ok (.str "us_ca") →
      pyGet company "company_number" = .ok (.str "C123") →
      (JValue.str "us_ca").truthy = true → (JValue.str "C123").truthy = true →
      ∃ e, process_candidate a0 netDown cd = .ok (some e) ∧
        e.lookup? "officers" = some (.arr []) ∧
        ∀ pre post, e ∈ aggregate_results a0 netDown (pre ++ cd :: post) :=
  C8_officer_failure_absorbed a0 netDown (.str "us_ca") (.str "C123") rfl

/-- C9: the search endpoint answers 400 with the fixed error body when the
request carries no truthy company_name, and otherwise 200 with the
serialized result of find_company_controllers. -/
theorem C9_search_endpoint (a : Agent) (net : Network) (data nv jv : JValue)
    (h1 : pyGet data "company_name" = .ok nv)
    (h2 : pyGet data "jurisdiction" = .ok jv) :
    (nv.truthy = false →
      search_company a net data =
        .ok (400, .obj [("error", .str "Company name is required")])) ∧
    (∀ r, nv.truthy = true → find_company_controllers a net nv jv = .ok r →
      search_company a net data = .ok (200, serializeResult r)) := by
  constructor
  · intro hfalsy
    unfold search_company
    rw [h1, ok_bind, h2, ok_bind, hfalsy, if_pos rfl]
    rfl
  · intro r htruthy hfind
    unfold search_company
    rw [h1, ok_bind, h2, ok_bind, htruthy,
      if_neg (show ¬(true : Bool) = false from fun hx => nomatch hx), hfind, ok_bind]
    rfl

/-- C9 witness: the empty request body receives the 400 error response. -/
theorem C9_search_endpoint_witness :
    search_company a0 netDown (.obj []) =
      .ok (400, .obj [("error", .str "Company name is required")]) :=
  (C9_search_endpoint a0 netDown (.obj []) .null .null rfl rfl).1 rfl

/-- C9 counterexample: a body that does carry a company_name but a truthy
non-string jurisdiction makes the lookup raise AttributeError inside the
endpoint (the hint is truthy, so lower() is called on an int), so the
endpoint produces no 200 response with a serialized result; likewise an
empty-string company_name is present yet answered with 400. -/
theorem C9_search_endpoint_counterexample :
    (JValue.obj [("company_name", .str "X"), ("jurisdiction", .num 5)]).lookup?
        "company_name" = some (.str "X") ∧
    search_company a0 netDown
        (.obj [("company_name", .str "X"), ("jurisdiction", .num 5)]) =
      .error .attributeError ∧
    (JValue.obj [("company_name", .str "")]).lookup? "company_name" =
      some (.str "") ∧
    search_company a0 netDown (.obj [("company_name", .str "")]) =
      .ok (400, .obj [("error", .str "Company name is required")]) :=
  ⟨rfl, rfl, rfl, rfl⟩
